import Mathlib

/-!
Verification development for the portfolio repository's CMS data-fetching and
image-URL-resolution layer (`src/lib/strapi.ts`) and its image proxy endpoint
(`src/pages/api/image-proxy.ts`).

The JavaScript/TypeScript source is shallowly embedded: ambient configuration
(`import.meta.env`) becomes an explicit `Env` record, the platform's string
builtins (`includes`, `startsWith`, `encodeURIComponent`, `decodeURIComponent`,
`URL`, `URLSearchParams`) are modelled as executable Lean functions over
character lists, and network effects (`fetch`) are modelled as oracles passed
in explicitly.
-/

namespace Portfolio

/-- Model of `String.prototype.includes`-style prefix matching on char lists. -/
def isPref : List Char → List Char → Bool
  | [], _ => true
  | _ :: _, [] => false
  | a :: as, b :: bs => a == b && isPref as bs

/-- Substring containment on char lists: `sub` occurs contiguously in the list. -/
def listContains (sub : List Char) : List Char → Bool
  | [] => sub.isEmpty
  | c :: rest => isPref sub (c :: rest) || listContains sub rest

/-- Model of JavaScript `String.prototype.includes`. -/
def strIncludes (s sub : String) : Bool :=
  listContains sub.data s.data

/-- Model of JavaScript `String.prototype.startsWith`. -/
def strStarts (s pre : String) : Bool :=
  isPref pre.data s.data

/-- JavaScript `||` on strings: the left operand unless it is falsy (empty). -/
def jsOr (a b : String) : String :=
  if a = "" then b else a

/-- The ambient configuration read from `import.meta.env`: `STRAPI_URL`
(the configured backend base origin; the empty string models an unset or
empty variable, both falsy in JS) and `DEV` (the development-mode flag). -/
structure Env where
  strapiUrl : String
  dev : Bool
deriving DecidableEq, Repr

/-! ### Model of the platform's percent-encoding builtins -/

/-- Characters left unescaped by `encodeURIComponent`:
`A-Z a-z 0-9 - _ . ! ~ * ' ( )` (tested by code point). -/
def isUnreservedURIChar (c : Char) : Bool :=
  let n := c.toNat
  (65 ≤ n && n ≤ 90) || (97 ≤ n && n ≤ 122) || (48 ≤ n && n ≤ 57) ||
  n == 45 || n == 95 || n == 46 || n == 33 || n == 126 ||
  n == 42 || n == 39 || n == 40 || n == 41

/-- Upper-case hexadecimal digit for a value below 16. -/
def hexDigit (n : Nat) : Char :=
  if n < 10 then Char.ofNat (48 + n) else Char.ofNat (55 + n)

/-- A single byte rendered as a `%XX` escape. -/
def percentByte (b : Nat) : List Char :=
  [Char.ofNat 37, hexDigit (b / 16), hexDigit (b % 16)]

/-- UTF-8 bytes of a Unicode code point (1 to 4 bytes). -/
def utf8Bytes (n : Nat) : List Nat :=
  if n < 128 then [n]
  else if n < 2048 then [192 + n / 64, 128 + n % 64]
  else if n < 65536 then [224 + n / 4096, 128 + (n / 64) % 64, 128 + n % 64]
  else [240 + n / 262144, 128 + (n / 4096) % 64, 128 + (n / 64) % 64, 128 + n % 64]

/-- Model of the JavaScript builtin `encodeURIComponent`. -/
def encodeURIComponent (s : String) : String :=
  ⟨s.data.flatMap fun c =>
    if isUnreservedURIChar c then [c] else (utf8Bytes c.toNat).flatMap percentByte⟩

/-- Value of a hexadecimal digit character, if it is one. -/
def hexVal (c : Char) : Option Nat :=
  let n := c.toNat
  if 48 ≤ n && n ≤ 57 then some (n - 48)
  else if 65 ≤ n && n ≤ 70 then some (n - 55)
  else if 97 ≤ n && n ≤ 102 then some (n - 97 + 10)
  else none

/-- Model of the JavaScript builtin `decodeURIComponent`, at the byte level:
each `%XX` pair becomes the character with that code; a malformed escape makes
the whole decode fail (`URIError`), modelled as `none`.  (The real builtin
additionally reassembles UTF-8 sequences; the inputs exercised here are ASCII,
where the two agree.) -/
def decodePercent : List Char → Option (List Char)
  | [] => some []
  | c :: rest =>
    if c.toNat = 37 then
      match rest with
      | h1 :: h2 :: rest2 =>
        match hexVal h1, hexVal h2 with
        | some a, some b =>
          match decodePercent rest2 with
          | some d => some (Char.ofNat (16 * a + b) :: d)
          | none => none
        | _, _ => none
      | _ => none
    else
      match decodePercent rest with
      | some d => some (c :: d)
      | none => none

/-- `decodeURIComponent` on strings. -/
def decodeURIComponent (s : String) : Option String :=
  (decodePercent s.data).map List.asString

/-! ### Media URL resolver (`src/lib/strapi.ts`, lines 101-248)

`proxyImageUrl`, `getStrapiMedia`, `formatImageUrl`, `formatImageUrlWithSize`.
-/

/-- The recognized image extensions of the gate regex
`/\.(jpg|jpeg|png|gif|webp|svg|avif)(\?|$)/i` in `getStrapiMedia`. -/
def imageExtensions : List String :=
  ["jpg", "jpeg", "png", "gif", "webp", "svg", "avif"]

/-- One alternative of the regex, tried right after a literal dot: the
extension's letters (case-insensitively), then either end of input or a
literal question mark. -/
def extMatchesHere (cs : List Char) : Bool :=
  imageExtensions.any fun ext =>
    ((cs.take ext.length).map Char.toLower == ext.data) &&
      (match cs.drop ext.length with
       | [] => true
       | c :: _ => c == '?')

/-- Scan for a match of the regex anywhere in the char list. -/
def hasImageExtFrom : List Char → Bool
  | [] => false
  | c :: rest => (c == '.' && extMatchesHere rest) || hasImageExtFrom rest

/-- Model of `imageExtensionRegex.test(fullUrl)` (strapi.ts line 137-138):
the URL contains a dot, a recognized extension (case-insensitive), and then
either the end of the string or a question mark. -/
def hasImageExtension (s : String) : Bool :=
  hasImageExtFrom s.data

/-- `proxyImageUrl` (strapi.ts lines 108-121): in development mode the URL is
returned untouched; otherwise it is percent-encoded into the proxy route. -/
def proxyImageUrl (env : Env) (imageUrl : String) : String :=
  if env.dev then imageUrl
  else "/api/image-proxy?url=" ++ encodeURIComponent imageUrl

/-- `getStrapiMedia` (strapi.ts lines 126-143).  `none` models a `null`
argument; JS `!url` is also true for the empty string.  A relative URL
(leading `/`) is prefixed with the configured base origin; then the proxy is
applied exactly when the caller asked for it and the extension regex matches. -/
def getStrapiMedia (env : Env) (url : Option String) (useProxy : Bool := true) : String :=
  match url with
  | none => ""
  | some u =>
    if u = "" then ""
    else
      let fullUrl := if strStarts u "/" then env.strapiUrl ++ u else u
      if useProxy && hasImageExtension fullUrl then proxyImageUrl env fullUrl
      else fullUrl

/-- One pre-generated format tier record (`{ url, width, height, ... }`).
The `size`/`sizeInBytes` fields are never read by the resolver and are
omitted from the embedding. -/
structure ImageFormat where
  url : String
  width : Nat
  height : Nat
deriving DecidableEq, Repr

/-- The optional `formats` object of a Strapi media record: any subset of the
four fixed tiers may be present. -/
structure ImageFormats where
  thumbnail : Option ImageFormat
  small : Option ImageFormat
  medium : Option ImageFormat
  large : Option ImageFormat
deriving DecidableEq, Repr

/-- A Strapi media record (`StrapiImage`), restricted to the two fields the
resolver reads: the original `url` and the optional `formats` mapping.  (The
identity/metadata fields `id`, `name`, `mime`, ... are never read.) -/
structure StrapiImage where
  url : String
  formats : Option ImageFormats
deriving DecidableEq, Repr

/-- `formatImageUrl` (strapi.ts lines 148-151). -/
def formatImageUrl (env : Env) (image : StrapiImage) (useProxy : Bool := true) : String :=
  getStrapiMedia env (some image.url) useProxy

/-- An entry of the `formats` array built at strapi.ts lines 176-184:
a tier name paired with its (present) format record. -/
structure NamedFormat where
  name : String
  format : ImageFormat
deriving DecidableEq, Repr

/-- The array of present tiers, in the fixed scan order
`large, medium, small, thumbnail` (strapi.ts lines 176-184: the literal array
filtered on `format !== undefined`, order preserved). -/
def collectFormats (fs : ImageFormats) : List NamedFormat :=
  [("large", fs.large), ("medium", fs.medium),
   ("small", fs.small), ("thumbnail", fs.thumbnail)].filterMap
    fun p => p.2.map fun t => ⟨p.1, t⟩

/-- `MAX_FORMAT_SIZE_MULTIPLIER = 1.25` (strapi.ts line 171). -/
def MAX_FORMAT_SIZE_MULTIPLIER : ℚ := 1.25

/-- `suitableFormats` (strapi.ts lines 188-191): the present tiers with
`width ≤ tierWidth ≤ width * 1.25`.  Widths are integers and `1.25 = 5/4` is
exact in binary floating point, so the JS comparison
`f.format.width <= width * 1.25` is exactly the integer inequality
`4 * tierWidth ≤ 5 * width` (see `withinMax_iff`). -/
def suitableFormats (width : Nat) (l : List NamedFormat) : List NamedFormat :=
  l.filter fun f =>
    decide (width ≤ f.format.width) &&
    decide (4 * f.format.width ≤ 5 * width)

/-- `oversizedFormats` (strapi.ts line 206): the present tiers with
`tierWidth ≥ width`. -/
def oversizedFormats (width : Nat) (l : List NamedFormat) : List NamedFormat :=
  l.filter fun f => decide (width ≤ f.format.width)

/-- The body of the scans at strapi.ts lines 195-200 and 208-213: keep the
current best unless the candidate is strictly smaller. -/
def keepSmaller (best f : NamedFormat) : NamedFormat :=
  if f.format.width < best.format.width then f else best

/-- The body of the scan at strapi.ts lines 219-224: keep the current best
unless the candidate is strictly larger. -/
def keepLarger (best f : NamedFormat) : NamedFormat :=
  if f.format.width > best.format.width then f else best

/-- The `length > 0` check plus `best = l[0]; for (x of l) ...` scan of
strapi.ts lines 193-200 / 207-213: `none` iff the list is empty, otherwise
the fold of `keepSmaller` over the whole list started at its first element. -/
def pickSmallest : List NamedFormat → Option NamedFormat
  | [] => none
  | x :: xs => some ((x :: xs).foldl keepSmaller x)

/-- The scan of strapi.ts lines 218-224 (largest available format). -/
def pickLargest : List NamedFormat → Option NamedFormat
  | [] => none
  | x :: xs => some ((x :: xs).foldl keepLarger x)

/-! ### Model of the platform's `URL` / `URLSearchParams` builtins

`formatImageUrlWithSize`'s fallback parses the original URL, sets the `width`
and `format` search parameters and re-serializes.  The WHATWG parser is
modelled for the hierarchical URLs this code handles: parsing succeeds iff the
string starts with a scheme (a letter followed by letters, digits, `+`, `-`
or `.`) and a colon; the part before the first `?` is kept verbatim as the
base and the rest is split into `k=v` pairs. -/

/-- Split a char list at the first occurrence of `c`; the second component is
`none` when `c` does not occur. -/
def splitAtFirst (c : Char) : List Char → List Char × Option (List Char)
  | [] => ([], none)
  | x :: rest =>
    if x == c then ([], some rest)
    else
      let p := splitAtFirst c rest
      (x :: p.1, p.2)

/-- Characters allowed in a URL scheme after the first letter. -/
def isSchemeChar (c : Char) : Bool :=
  let n := c.toNat
  (65 ≤ n && n ≤ 90) || (97 ≤ n && n ≤ 122) || (48 ≤ n && n ≤ 57) ||
  n == 43 || n == 45 || n == 46

/-- A parsed URL: everything before the first `?` verbatim, plus the parsed
search parameters. -/
structure SimpleUrl where
  base : String
  params : List (String × String)
deriving DecidableEq, Repr

/-- One `k=v` piece of a query string (`k` alone means the empty value). -/
def parseQueryPiece (cs : List Char) : String × String :=
  let p := splitAtFirst '=' cs
  (⟨p.1⟩, ⟨p.2.getD []⟩)

/-- Split a query string on `&` into pieces. -/
def splitAmp : List Char → List (List Char)
  | [] => [[]]
  | c :: rest =>
    let r := splitAmp rest
    if c == '&' then [] :: r
    else
      match r with
      | [] => [[c]]
      | piece :: more => (c :: piece) :: more

/-- Parse a query string into key-value pairs. -/
def parseQuery (cs : List Char) : List (String × String) :=
  ((splitAmp cs).filter fun p => !p.isEmpty).map parseQueryPiece

/-- Model of `new URL(s)` restricted to what the fallback needs: fail
((`TypeError`), modelled `none`) unless the string begins with a well-formed
scheme and a colon. -/
def parseURL (s : String) : Option SimpleUrl :=
  let p := splitAtFirst ':' s.data
  match p.2 with
  | none => none
  | some _ =>
    match p.1 with
    | [] => none
    | c :: rest =>
      if (c.isAlpha && rest.all isSchemeChar) then
        let q := splitAtFirst '?' s.data
        some ⟨⟨q.1⟩, match q.2 with | none => [] | some qc => parseQuery qc⟩
      else none

/-- Model of `URLSearchParams.set`: replace the first pair with this key (and
drop any later ones), or append the pair if the key is absent. -/
def setParamList (k v : String) : List (String × String) → List (String × String)
  | [] => [(k, v)]
  | p :: rest =>
    if p.1 = k then (k, v) :: rest.filter fun q => q.1 ≠ k
    else p :: setParamList k v rest

/-- `url.searchParams.set(k, v)`. -/
def setSearchParam (u : SimpleUrl) (k v : String) : SimpleUrl :=
  ⟨u.base, setParamList k v u.params⟩

/-- Characters `URLSearchParams` serializes unescaped: `A-Z a-z 0-9 * - . _`. -/
def isFormUnreserved (c : Char) : Bool :=
  let n := c.toNat
  (65 ≤ n && n ≤ 90) || (97 ≤ n && n ≤ 122) || (48 ≤ n && n ≤ 57) ||
  n == 42 || n == 45 || n == 46 || n == 95

/-- `application/x-www-form-urlencoded` serialization of one string. -/
def formEncode (s : String) : String :=
  ⟨s.data.flatMap fun c =>
    if isFormUnreserved c then [c]
    else if c.toNat = 32 then [Char.ofNat 43]
    else (utf8Bytes c.toNat).flatMap percentByte⟩

/-- Model of `url.toString()`: the base followed by the re-serialized query
(when any parameters remain). -/
def urlToString (u : SimpleUrl) : String :=
  if u.params.isEmpty then u.base
  else u.base ++ "?" ++
    String.intercalate "&" (u.params.map fun p => formEncode p.1 ++ "=" ++ formEncode p.2)

/-- The fallback of `formatImageUrlWithSize` (strapi.ts lines 229-247):
resolve the original URL without proxying, try to parse it, set the `width`
and `format` query parameters and proxy the result if requested; if parsing
throws, resolve the original URL again, this time with the caller's proxy
flag. -/
def queryFallback (env : Env) (image : StrapiImage) (width : Nat)
    (format : String) (useProxy : Bool) : String :=
  let baseUrlWithoutProxy := getStrapiMedia env (some image.url) false
  match parseURL baseUrlWithoutProxy with
  | some u =>
    let u1 := setSearchParam u "width" (Nat.repr width)
    let u2 := setSearchParam u1 "format" format
    if useProxy then proxyImageUrl env (urlToString u2) else urlToString u2
  | none => getStrapiMedia env (some image.url) useProxy

/-- `formatImageUrlWithSize` (strapi.ts lines 162-248).  The three
`length > 0` branches appear as matches on the `pickSmallest`/`pickLargest`
scans (`none` iff the corresponding candidate list is empty); both the
missing-`formats` case and the all-tiers-absent case reach the query-parameter
fallback, as in the source. -/
def formatImageUrlWithSize (env : Env) (image : StrapiImage) (width : Nat)
    (format : String := "webp") (useProxy : Bool := true) : String :=
  match image.formats with
  | none => queryFallback env image width format useProxy
  | some fs =>
    match pickSmallest (suitableFormats width (collectFormats fs)) with
    | some best => getStrapiMedia env (some best.format.url) useProxy
    | none =>
      match pickSmallest (oversizedFormats width (collectFormats fs)) with
      | some smallestOversized =>
        getStrapiMedia env (some smallestOversized.format.url) useProxy
      | none =>
        match pickLargest (collectFormats fs) with
        | some largestFormat =>
          getStrapiMedia env (some largestFormat.format.url) useProxy
        | none => queryFallback env image width format useProxy

/-! ### Content fetcher (`fetchApi`, strapi.ts lines 13-99)

The network is an oracle `Nat → FetchAttempt T` giving the outcome of the
`fetch` call of each attempt.  A `reply` carries the HTTP result together
with the parsed JSON body; `throw` models a rejected `fetch` (or body read).
The value `body.value` stands for the payload after the `wrappedByKey` /
`wrappedByList` unwrapping, which the retry logic never inspects.  Awaited
delays are recorded in the returned trace instead of being performed. -/

/-- A JavaScript error value: whether it is a `TypeError`, and its message. -/
structure JsError where
  isTypeError : Bool
  message : String
deriving DecidableEq, Repr

/-- The backend envelope's `error` field: `{ status, message }` (an absent or
empty `message` is modelled by `""`, falsy either way under `||`). -/
structure EnvError where
  status : Nat
  message : String
deriving DecidableEq, Repr

/-- A parsed JSON response body: the optional envelope `error`, and the
payload used on the success path. -/
structure JsonBody (T : Type) where
  error : Option EnvError
  value : T
deriving DecidableEq, Repr

/-- An HTTP response as `fetchApi` sees it (`res.ok`, `res.status`,
`res.statusText`, and the JSON body; for a non-ok response whose body fails
to parse, the `.catch(() => ({}))` fallback is a body with `error := none`). -/
structure ApiReply (T : Type) where
  ok : Bool
  status : Nat
  statusText : String
  body : JsonBody T
deriving DecidableEq, Repr

/-- Outcome of one `fetch` call. -/
inductive FetchAttempt (T : Type) where
  | throw (e : JsError)
  | reply (r : ApiReply T)
deriving DecidableEq, Repr

/-- `maxRetries = 10` (strapi.ts line 32). -/
def maxRetries : Nat := 10

/-- `retryDelay = 1000` milliseconds (strapi.ts line 33). -/
def retryDelay : Nat := 1000

/-- `errorData.error?.message` with JS optional chaining: the message of the
envelope error if present, else the (falsy) empty string. -/
def jsonErrMsg {T : Type} (b : JsonBody T) : String :=
  (b.error.map EnvError.message).getD ""

/-- The message composed at strapi.ts lines 47-49 for a non-ok response. -/
def httpErrorMsg (status : Nat) (statusText errMsg : String) : String :=
  "Strapi API error (" ++ Nat.repr status ++ "): " ++
    jsOr errMsg (jsOr statusText "Unknown error")

/-- The message composed at strapi.ts lines 60-62 for an envelope error. -/
def envErrorMsg (m : String) : String :=
  "Strapi API error: " ++ jsOr m "Unknown error"

/-- The message of strapi.ts lines 87-89 on exhausting retries for a network
failure. -/
def connectFailMsg (strapiUrl : String) : String :=
  "Failed to connect to Strapi at " ++ strapiUrl ++ " after " ++
    Nat.repr maxRetries ++ " attempts. Make sure Strapi is running."

/-- The catch block's classification (strapi.ts lines 78-82): a `TypeError`
whose message mentions `fetch`, or any error whose message mentions
`Failed to connect`. -/
def isNetworkError (e : JsError) : Bool :=
  (e.isTypeError && strIncludes e.message "fetch") ||
    strIncludes e.message "Failed to connect"

instance {ε α : Type} [DecidableEq ε] [DecidableEq α] : DecidableEq (Except ε α) :=
  fun a b =>
    match a, b with
    | .error e, .error f => decidable_of_iff (e = f) (by simp)
    | .error _, .ok _ => isFalse (by simp)
    | .ok _, .error _ => isFalse (by simp)
    | .ok x, .ok y => decidable_of_iff (x = y) (by simp)

/-- What one loop iteration does next: finish with a result, retry after a
404 (leaving `lastError` untouched), or retry after a network failure
(recording it as `lastError`). -/
inductive StepOut (T : Type) where
  | done (r : Except JsError T)
  | retry404
  | retryNet (e : JsError)
deriving DecidableEq, Repr

/-- The catch block (strapi.ts lines 74-94), applied to whatever error reached
it: network-classified errors retry while attempts remain and otherwise become
the generic connection failure; anything else is thrown immediately. -/
def handleThrown {T : Type} (strapiUrl : String) (attempt : Nat) (e : JsError) :
    StepOut T :=
  if isNetworkError e then
    if attempt < maxRetries - 1 then .retryNet e
    else .done (.error ⟨false, connectFailMsg strapiUrl⟩)
  else .done (.error e)

/-- One iteration of the retry loop (strapi.ts lines 38-94): the `try` block's
HTTP-status check, envelope-error check and success return, with every `throw`
routed through the `catch` block. -/
def attemptStep {T : Type} (strapiUrl : String) (attempt : Nat) :
    FetchAttempt T → StepOut T
  | .throw e => handleThrown strapiUrl attempt e
  | .reply r =>
    if r.ok then
      match r.body.error with
      | some err =>
        if err.status == 404 && decide (attempt < maxRetries - 1) then .retry404
        else handleThrown strapiUrl attempt ⟨false, envErrorMsg err.message⟩
      | none => .done (.ok r.body.value)
    else
      if r.status == 404 && decide (attempt < maxRetries - 1) then .retry404
      else
        handleThrown strapiUrl attempt
          ⟨false, httpErrorMsg r.status r.statusText (jsonErrMsg r.body)⟩

/-- The trace of a `fetchApi` call: its result, how many `fetch` calls were
made, and the list of awaited inter-attempt delays (in milliseconds). -/
structure FetchTrace (T : Type) where
  result : Except JsError T
  attempts : Nat
  delays : List Nat
deriving DecidableEq, Repr

/-- The `for (let attempt = 0; attempt < maxRetries; attempt++)` loop, with
`fuel = maxRetries - attempt` remaining iterations; exhausted fuel is the
fall-through `throw lastError || new Error('Failed to fetch from Strapi')`
of strapi.ts line 98. -/
def fetchApiAux {T : Type} (strapiUrl : String) (oracle : Nat → FetchAttempt T) :
    Option JsError → Nat → Nat → FetchTrace T
  | lastError, _, 0 =>
    ⟨.error (lastError.getD ⟨false, "Failed to fetch from Strapi"⟩), 0, []⟩
  | lastError, attempt, fuel + 1 =>
    match attemptStep strapiUrl attempt (oracle attempt) with
    | .done r => ⟨r, 1, []⟩
    | .retry404 =>
      let t := fetchApiAux strapiUrl oracle lastError (attempt + 1) fuel
      ⟨t.result, t.attempts + 1, retryDelay :: t.delays⟩
    | .retryNet e =>
      let t := fetchApiAux strapiUrl oracle (some e) (attempt + 1) fuel
      ⟨t.result, t.attempts + 1, retryDelay :: t.delays⟩

/-- `fetchApi` (strapi.ts lines 13-99), as a trace over the attempt oracle.
URL construction and query-string assembly happen before the loop and do not
affect the retry behavior modelled here. -/
def fetchApi {T : Type} (strapiUrl : String) (oracle : Nat → FetchAttempt T) :
    FetchTrace T :=
  fetchApiAux strapiUrl oracle none 0 maxRetries

/-- The error surfaced when every attempt got an HTTP 404 (the attempt-9
composition of strapi.ts lines 47-49, possibly reclassified by the catch
block's network test and replaced by the generic connection failure). -/
def finalErr {T : Type} (strapiUrl statusText : String) (b : JsonBody T) : JsError :=
  let e : JsError := ⟨false, httpErrorMsg 404 statusText (jsonErrMsg b)⟩
  if isNetworkError e then ⟨false, connectFailMsg strapiUrl⟩ else e

/-! ### Image proxy endpoint (`src/pages/api/image-proxy.ts`, `GET`) -/

/-- Outcome of the proxy's upstream `fetch`: a rejection, or a response with
its `ok` flag, status, optional `content-type` header and body bytes. -/
inductive UpstreamResult where
  | failure
  | resp (ok : Bool) (status : Nat) (contentType : Option String) (body : String)
deriving DecidableEq, Repr

/-- An HTTP response produced by the endpoint. -/
structure ProxyResponse where
  status : Nat
  body : String
  headers : List (String × String)
deriving DecidableEq, Repr

/-- Look a response header up by exact name. -/
def headerValue (r : ProxyResponse) (k : String) : Option String :=
  (r.headers.find? fun p => p.1 = k).map Prod.snd

/-- A plain-text response with no headers set. -/
def plainResponse (status : Nat) (body : String) : ProxyResponse :=
  ⟨status, body, []⟩

/-- `GET` (image-proxy.ts lines 10-67).  `urlParam` is
`context.url.searchParams.get('url')` (`none` for `null`); the upstream
`fetch` is the oracle `upstream`.  A failed `decodeURIComponent` or a rejected
upstream fetch lands in the catch-all `500`. -/
def imageProxyGET (env : Env) (upstream : String → UpstreamResult)
    (urlParam : Option String) : ProxyResponse :=
  match urlParam with
  | none => plainResponse 400 "Missing url parameter"
  | some raw =>
    if raw = "" then plainResponse 400 "Missing url parameter"
    else
      match decodeURIComponent raw with
      | none => plainResponse 500 "Internal server error"
      | some decodedUrl =>
        if !(strStarts decodedUrl "http://" || strStarts decodedUrl "https://") then
          plainResponse 400 "Invalid image URL: must be HTTP(S)"
        else
          let isStrapiApiUrl :=
            env.strapiUrl ≠ "" && strIncludes decodedUrl env.strapiUrl
          let isStrapiMediaCdn := strIncludes decodedUrl ".media.strapiapp.com"
          if !isStrapiApiUrl && !isStrapiMediaCdn then
            plainResponse 400 "Invalid image URL: must be from Strapi API or media CDN"
          else
            match upstream decodedUrl with
            | .failure => plainResponse 500 "Internal server error"
            | .resp ok status contentType body =>
              if !ok then plainResponse status "Failed to fetch image"
              else
                ⟨200, body,
                 [("Content-Type", contentType.getD "image/jpeg"),
                  ("Cache-Control", "public, max-age=31536000, immutable"),
                  ("X-Content-Type-Options", "nosniff")]⟩

/-- The host portion of a hierarchical URL: the characters after `"://"` up to
the first `/`, `?`, `#` or `:`.  Used to state what a host-based allow-list
would have checked. -/
def urlHost (s : String) : String :=
  match (splitAtFirst ':' s.data).2 with
  | none => ""
  | some rest =>
    match rest with
    | c1 :: c2 :: tail =>
      if c1 == '/' && c2 == '/' then
        ⟨tail.takeWhile fun c =>
          !(c == '/' || c == '?' || c == '#' || c == ':')⟩
      else ""
    | _ => ""

/-! ### Populate formatting and the validating fetch variants
(strapi.ts lines 277-309 and 378-428) -/

/-- The `populate` argument: absent, a string, or an array of field names. -/
inductive PopulateArg where
  | undef
  | str (s : String)
  | arr (l : List String)
deriving DecidableEq, Repr

/-- `formatPopulateParam` (strapi.ts lines 277-288). -/
def formatPopulateParam : PopulateArg → Option String
  | .undef => none
  | .str s => if s = "" then some "*" else some s
  | .arr l =>
    if l.length = 0 then some "*"
    else some (String.intercalate "," l)

/-- JS object property assignment on a string-keyed record modelled as an
association list: an existing key keeps its position and gets the new value,
a fresh key is appended. -/
def setRecordKey (r : List (String × String)) (k v : String) :
    List (String × String) :=
  if r.any fun p => p.1 = k then
    r.map fun p => if p.1 = k then (k, v) else p
  else r ++ [(k, v)]

/-- The query-parameter assembly of `fetchSingleType` / `fetchCollection`
(strapi.ts lines 299-303 and 320-324): the populate parameter is added only
when `formatPopulateParam` produced one. -/
def buildQueryParams (query : List (String × String)) (populate : PopulateArg) :
    List (String × String) :=
  match formatPopulateParam populate with
  | none => query
  | some v => setRecordKey query "populate" v

/-- The not-found message thrown by the validating variants (strapi.ts
lines 387-389 and 415-417). -/
def notFoundMsg (contentTypeName : String) : String :=
  contentTypeName ++ " content not found in Strapi. Please:\n1. Create and publish the content in the Strapi admin panel\n2. Go to Settings > Users & Permissions Plugin > Roles > Public\n3. Enable \"find\" permission for \"" ++ contentTypeName ++ "\""

/-- The wrapped message of strapi.ts lines 396-398 and 424-426. -/
def wrapFailMsg (contentTypeName msg : String) : String :=
  "Failed to fetch content from Strapi: " ++ msg ++
    ". Make sure Strapi is running and the " ++ contentTypeName ++
    " content type has public permissions enabled."

/-- The shared catch block (strapi.ts lines 392-399 / 420-427): an error
already saying `content not found` is re-thrown as-is, anything else is
wrapped.  Errors are modelled by their message (`fetchApi` and the validating
variants only ever throw `Error` instances, so the `instanceof Error` test
always passes). -/
def validateCatch {T : Type} (contentTypeName : String) :
    Except String T → Except String T
  | .ok d => .ok d
  | .error e =>
    if strIncludes e "content not found" then .error e
    else .error (wrapFailMsg contentTypeName e)

/-- `fetchSingleTypeWithValidation` (strapi.ts lines 378-400), over the
underlying `fetchSingleType` outcome (`ok none` models a `null` payload). -/
def fetchSingleTypeWithValidation {T : Type} (contentTypeName : String)
    (underlying : Except String (Option T)) : Except String T :=
  validateCatch contentTypeName
    (match underlying with
     | .error e => .error e
     | .ok none => .error (notFoundMsg contentTypeName)
     | .ok (some d) => .ok d)

/-- `fetchCollectionWithValidation` (strapi.ts lines 406-428): a `null` or
empty collection is the not-found case. -/
def fetchCollectionWithValidation {T : Type} (contentTypeName : String)
    (underlying : Except String (Option (List T))) : Except String (List T) :=
  validateCatch contentTypeName
    (match underlying with
     | .error e => .error e
     | .ok none => .error (notFoundMsg contentTypeName)
     | .ok (some l) =>
       if l.isEmpty then .error (notFoundMsg contentTypeName)
       else .ok l)

/-! ### Spec-side definitions (for refinement comparison only) -/

/-- ASCII lowercasing of a whole string. -/
def lowerStr (s : String) : String :=
  ⟨s.data.map Char.toLower⟩

/-- Modelled from the spec's words, for comparison with the source's
`hasImageExtension`: "URLs whose *path* ends in a recognized image extension
(case-insensitive, optionally followed by a query string)" — the portion of
the URL before the first `?` ends, case-insensitively, in a dot and one of
the recognized extensions. -/
def specPathEndsInImageExt (s : String) : Bool :=
  let path : String := ⟨(splitAtFirst '?' s.data).1⟩
  imageExtensions.any fun ext =>
    isPref ("." ++ ext).data.reverse (lowerStr path).data.reverse

/-! ### Properties of the scans of `formatImageUrlWithSize` -/

/-- `r` is the first element of `l` attaining the minimal width: everything
before it is strictly wider, everything after it at least as wide. -/
def IsFirstMin (l : List NamedFormat) (r : NamedFormat) : Prop :=
  ∃ pre post, l = pre ++ r :: post ∧
    (∀ g ∈ pre, r.format.width < g.format.width) ∧
    (∀ g ∈ post, r.format.width ≤ g.format.width)

/-- `r` is the first element of `l` attaining the maximal width. -/
def IsFirstMax (l : List NamedFormat) (r : NamedFormat) : Prop :=
  ∃ pre post, l = pre ++ r :: post ∧
    (∀ g ∈ pre, g.format.width < r.format.width) ∧
    (∀ g ∈ post, g.format.width ≤ r.format.width)

theorem IsFirstMin_mem {l : List NamedFormat} {r : NamedFormat}
    (h : IsFirstMin l r) : r ∈ l := by
  obtain ⟨pre, post, rfl, -, -⟩ := h
  simp

theorem IsFirstMin_min {l : List NamedFormat} {r : NamedFormat}
    (h : IsFirstMin l r) : ∀ g ∈ l, r.format.width ≤ g.format.width := by
  obtain ⟨pre, post, rfl, hpre, hpost⟩ := h
  intro g hg
  rcases List.mem_append.1 hg with hg | hg
  · exact le_of_lt (hpre g hg)
  · rcases List.mem_cons.1 hg with rfl | hg
    · exact le_refl _
    · exact hpost g hg

theorem IsFirstMax_mem {l : List NamedFormat} {r : NamedFormat}
    (h : IsFirstMax l r) : r ∈ l := by
  obtain ⟨pre, post, rfl, -, -⟩ := h
  simp

theorem IsFirstMax_max {l : List NamedFormat} {r : NamedFormat}
    (h : IsFirstMax l r) : ∀ g ∈ l, g.format.width ≤ r.format.width := by
  obtain ⟨pre, post, rfl, hpre, hpost⟩ := h
  intro g hg
  rcases List.mem_append.1 hg with hg | hg
  · exact le_of_lt (hpre g hg)
  · rcases List.mem_cons.1 hg with rfl | hg
    · exact le_refl _
    · exact hpost g hg

theorem foldl_keepSmaller_split (xs : List NamedFormat) (b : NamedFormat) :
    (xs.foldl keepSmaller b = b ∧ ∀ g ∈ xs, b.format.width ≤ g.format.width) ∨
    (∃ pre r post, xs = pre ++ r :: post ∧ xs.foldl keepSmaller b = r ∧
      r.format.width < b.format.width ∧
      (∀ g ∈ pre, r.format.width < g.format.width) ∧
      (∀ g ∈ post, r.format.width ≤ g.format.width)) := by
  induction xs generalizing b with
  | nil => exact Or.inl ⟨rfl, by simp⟩
  | cons x xs ih =>
    by_cases hx : x.format.width < b.format.width
    · have hfold : (x :: xs).foldl keepSmaller b = xs.foldl keepSmaller x := by
        simp [List.foldl_cons, keepSmaller, hx]
      rcases ih x with ⟨h1, h2⟩ | ⟨pre, r, post, heq, hf, hlt, hpre, hpost⟩
      · exact Or.inr ⟨[], x, xs, by simp, by rw [hfold, h1], hx, by simp, h2⟩
      · refine Or.inr ⟨x :: pre, r, post, by rw [heq]; rfl, by rw [hfold, hf],
          lt_trans hlt hx, ?_, hpost⟩
        intro g hg
        rcases List.mem_cons.1 hg with rfl | hg'
        · exact hlt
        · exact hpre g hg'
    · have hfold : (x :: xs).foldl keepSmaller b = xs.foldl keepSmaller b := by
        simp [List.foldl_cons, keepSmaller, hx]
      push_neg at hx
      rcases ih b with ⟨h1, h2⟩ | ⟨pre, r, post, heq, hf, hlt, hpre, hpost⟩
      · refine Or.inl ⟨by rw [hfold, h1], ?_⟩
        intro g hg
        rcases List.mem_cons.1 hg with rfl | hg'
        · exact hx
        · exact h2 g hg'
      · refine Or.inr ⟨x :: pre, r, post, by rw [heq]; rfl, by rw [hfold, hf],
          hlt, ?_, hpost⟩
        intro g hg
        rcases List.mem_cons.1 hg with rfl | hg'
        · exact lt_of_lt_of_le hlt hx
        · exact hpre g hg'

theorem foldl_keepLarger_split (xs : List NamedFormat) (b : NamedFormat) :
    (xs.foldl keepLarger b = b ∧ ∀ g ∈ xs, g.format.width ≤ b.format.width) ∨
    (∃ pre r post, xs = pre ++ r :: post ∧ xs.foldl keepLarger b = r ∧
      b.format.width < r.format.width ∧
      (∀ g ∈ pre, g.format.width < r.format.width) ∧
      (∀ g ∈ post, g.format.width ≤ r.format.width)) := by
  induction xs generalizing b with
  | nil => exact Or.inl ⟨rfl, by simp⟩
  | cons x xs ih =>
    by_cases hx : x.format.width > b.format.width
    · have hfold : (x :: xs).foldl keepLarger b = xs.foldl keepLarger x := by
        simp [List.foldl_cons, keepLarger, hx]
      rcases ih x with ⟨h1, h2⟩ | ⟨pre, r, post, heq, hf, hlt, hpre, hpost⟩
      · exact Or.inr ⟨[], x, xs, by simp, by rw [hfold, h1], hx, by simp, h2⟩
      · refine Or.inr ⟨x :: pre, r, post, by rw [heq]; rfl, by rw [hfold, hf],
          lt_trans hx hlt, ?_, hpost⟩
        intro g hg
        rcases List.mem_cons.1 hg with rfl | hg'
        · exact hlt
        · exact hpre g hg'
    · have hfold : (x :: xs).foldl keepLarger b = xs.foldl keepLarger b := by
        simp [List.foldl_cons, keepLarger, hx]
      push_neg at hx
      rcases ih b with ⟨h1, h2⟩ | ⟨pre, r, post, heq, hf, hlt, hpre, hpost⟩
      · refine Or.inl ⟨by rw [hfold, h1], ?_⟩
        intro g hg
        rcases List.mem_cons.1 hg with rfl | hg'
        · exact hx
        · exact h2 g hg'
      · refine Or.inr ⟨x :: pre, r, post, by rw [heq]; rfl, by rw [hfold, hf],
          hlt, ?_, hpost⟩
        intro g hg
        rcases List.mem_cons.1 hg with rfl | hg'
        · exact lt_of_le_of_lt hx hlt
        · exact hpre g hg'

/-- The integer test used in `suitableFormats` is exactly the source's
floating-point comparison against `width * 1.25`, stated over `ℚ`. -/
theorem withinMax_iff (width fw : Nat) :
    ((fw : ℚ) ≤ (width : ℚ) * MAX_FORMAT_SIZE_MULTIPLIER) ↔
      4 * fw ≤ 5 * width := by
  rw [MAX_FORMAT_SIZE_MULTIPLIER]
  constructor
  · intro h
    have h2 : ((4 * fw : Nat) : ℚ) ≤ ((5 * width : Nat) : ℚ) := by
      push_cast
      linarith
    exact_mod_cast h2
  · intro h
    have h2 : ((4 * fw : Nat) : ℚ) ≤ ((5 * width : Nat) : ℚ) := by
      exact_mod_cast h
    push_cast at h2
    linarith

theorem pickSmallest_nil : pickSmallest [] = none := rfl

theorem pickLargest_nil : pickLargest [] = none := rfl

theorem pickSmallest_eq_none {l : List NamedFormat} :
    pickSmallest l = none ↔ l = [] := by
  cases l <;> simp [pickSmallest]

theorem pickLargest_eq_none {l : List NamedFormat} :
    pickLargest l = none ↔ l = [] := by
  cases l <;> simp [pickLargest]

theorem pickSmallest_isFirstMin {l : List NamedFormat} {r : NamedFormat}
    (h : pickSmallest l = some r) : IsFirstMin l r := by
  match l with
  | [] => simp [pickSmallest] at h
  | x :: xs =>
    simp only [pickSmallest, Option.some.injEq] at h
    have hstep : (x :: xs).foldl keepSmaller x = xs.foldl keepSmaller x := by
      simp [List.foldl_cons, keepSmaller]
    rw [hstep] at h
    rcases foldl_keepSmaller_split xs x with ⟨h1, h2⟩ | ⟨pre, r', post, heq, hf, hlt, hpre, hpost⟩
    · rw [h1] at h
      subst h
      exact ⟨[], xs, rfl, by simp, h2⟩
    · rw [hf] at h
      subst h
      refine ⟨x :: pre, post, by rw [heq]; rfl, ?_, hpost⟩
      intro g hg
      rcases List.mem_cons.1 hg with rfl | hg'
      · exact hlt
      · exact hpre g hg'

theorem pickLargest_isFirstMax {l : List NamedFormat} {r : NamedFormat}
    (h : pickLargest l = some r) : IsFirstMax l r := by
  match l with
  | [] => simp [pickLargest] at h
  | x :: xs =>
    simp only [pickLargest, Option.some.injEq] at h
    have hstep : (x :: xs).foldl keepLarger x = xs.foldl keepLarger x := by
      simp [List.foldl_cons, keepLarger]
    rw [hstep] at h
    rcases foldl_keepLarger_split xs x with ⟨h1, h2⟩ | ⟨pre, r', post, heq, hf, hlt, hpre, hpost⟩
    · rw [h1] at h
      subst h
      exact ⟨[], xs, rfl, by simp, h2⟩
    · rw [hf] at h
      subst h
      refine ⟨x :: pre, post, by rw [heq]; rfl, ?_, hpost⟩
      intro g hg
      rcases List.mem_cons.1 hg with rfl | hg'
      · exact hlt
      · exact hpre g hg'

theorem mem_suitable_iff {width : Nat} {l : List NamedFormat} {f : NamedFormat} :
    f ∈ suitableFormats width l ↔
      f ∈ l ∧ width ≤ f.format.width ∧
        (f.format.width : ℚ) ≤ (width : ℚ) * MAX_FORMAT_SIZE_MULTIPLIER := by
  simp [suitableFormats, List.mem_filter, and_assoc, withinMax_iff]

theorem mem_oversized_iff {width : Nat} {l : List NamedFormat} {f : NamedFormat} :
    f ∈ oversizedFormats width l ↔ f ∈ l ∧ width ≤ f.format.width := by
  simp [oversizedFormats, List.mem_filter]

theorem suitable_eq_nil {width : Nat} {l : List NamedFormat}
    (h : ∀ g ∈ l, ¬(width ≤ g.format.width ∧
      (g.format.width : ℚ) ≤ (width : ℚ) * MAX_FORMAT_SIZE_MULTIPLIER)) :
    suitableFormats width l = [] := by
  rcases hs : suitableFormats width l with _ | ⟨f, rest⟩
  · rfl
  · exfalso
    have : f ∈ suitableFormats width l := by rw [hs]; exact List.mem_cons_self f rest
    obtain ⟨hf, h1, h2⟩ := mem_suitable_iff.1 this
    exact h f hf ⟨h1, h2⟩

theorem oversized_eq_nil {width : Nat} {l : List NamedFormat}
    (h : ∀ g ∈ l, g.format.width < width) :
    oversizedFormats width l = [] := by
  rcases hs : oversizedFormats width l with _ | ⟨f, rest⟩
  · rfl
  · exfalso
    have : f ∈ oversizedFormats width l := by rw [hs]; exact List.mem_cons_self f rest
    obtain ⟨hf, h1⟩ := mem_oversized_iff.1 this
    exact absurd h1 (not_le.2 (h f hf))

/-! ### Claim theorems -/

/-- C1: for every image descriptor and requested width, if at least one
present format tier has width in the closed interval
`[requestedWidth, requestedWidth * 1.25]`, then `formatImageUrlWithSize`
returns the URL of the tier with the smallest width in that interval,
resolved through `getStrapiMedia`. -/
theorem formatImageUrlWithSize_picks_best_in_range
    (env : Env) (image : StrapiImage) (width : Nat) (format : String)
    (useProxy : Bool) (fs : ImageFormats) (hfs : image.formats = some fs)
    (hex : ∃ g ∈ collectFormats fs, width ≤ g.format.width ∧
      (g.format.width : ℚ) ≤ (width : ℚ) * MAX_FORMAT_SIZE_MULTIPLIER) :
    ∃ r ∈ collectFormats fs,
      width ≤ r.format.width ∧
      (r.format.width : ℚ) ≤ (width : ℚ) * MAX_FORMAT_SIZE_MULTIPLIER ∧
      (∀ g ∈ collectFormats fs, width ≤ g.format.width →
        (g.format.width : ℚ) ≤ (width : ℚ) * MAX_FORMAT_SIZE_MULTIPLIER →
        r.format.width ≤ g.format.width) ∧
      formatImageUrlWithSize env image width format useProxy =
        getStrapiMedia env (some r.format.url) useProxy := by
  obtain ⟨g, hg, hg1, hg2⟩ := hex
  have hmem : g ∈ suitableFormats width (collectFormats fs) :=
    mem_suitable_iff.2 ⟨hg, hg1, hg2⟩
  have hne : suitableFormats width (collectFormats fs) ≠ [] :=
    List.ne_nil_of_mem hmem
  cases hp : pickSmallest (suitableFormats width (collectFormats fs)) with
  | none => exact absurd (pickSmallest_eq_none.1 hp) hne
  | some r =>
    have hfm := pickSmallest_isFirstMin hp
    obtain ⟨hrcol, hr1, hr2⟩ := mem_suitable_iff.1 (IsFirstMin_mem hfm)
    refine ⟨r, hrcol, hr1, hr2, ?_, ?_⟩
    · intro g2 hg2m hg2a hg2b
      exact (IsFirstMin_min hfm) _ (mem_suitable_iff.2 ⟨hg2m, hg2a, hg2b⟩)
    · simp [formatImageUrlWithSize, hfs, hp]

/-- Witness for C1: tiers small 500 / medium 750, requested width 600;
medium (750) is the only tier in `[600, 750]` and is returned. -/
theorem formatImageUrlWithSize_picks_best_in_range_witness :
    ∃ r ∈ collectFormats ⟨none, some ⟨"/uploads/small.jpg", 500, 300⟩,
        some ⟨"/uploads/medium.jpg", 750, 450⟩, none⟩,
      600 ≤ r.format.width ∧
      (r.format.width : ℚ) ≤ (600 : ℚ) * MAX_FORMAT_SIZE_MULTIPLIER ∧
      (∀ g ∈ collectFormats ⟨none, some ⟨"/uploads/small.jpg", 500, 300⟩,
          some ⟨"/uploads/medium.jpg", 750, 450⟩, none⟩,
        600 ≤ g.format.width →
        (g.format.width : ℚ) ≤ (600 : ℚ) * MAX_FORMAT_SIZE_MULTIPLIER →
        r.format.width ≤ g.format.width) ∧
      formatImageUrlWithSize ⟨"https://api.example.com", false⟩
          ⟨"/uploads/test-image.jpg",
           some ⟨none, some ⟨"/uploads/small.jpg", 500, 300⟩,
             some ⟨"/uploads/medium.jpg", 750, 450⟩, none⟩⟩ 600 "webp" false =
        getStrapiMedia ⟨"https://api.example.com", false⟩ (some r.format.url) false :=
  formatImageUrlWithSize_picks_best_in_range
    ⟨"https://api.example.com", false⟩
    ⟨"/uploads/test-image.jpg",
     some ⟨none, some ⟨"/uploads/small.jpg", 500, 300⟩,
       some ⟨"/uploads/medium.jpg", 750, 450⟩, none⟩⟩ 600 "webp" false
    ⟨none, some ⟨"/uploads/small.jpg", 500, 300⟩,
     some ⟨"/uploads/medium.jpg", 750, 450⟩, none⟩ rfl
    ⟨⟨"medium", ⟨"/uploads/medium.jpg", 750, 450⟩⟩, by decide, by decide,
     by rw [withinMax_iff]; decide⟩

/-- C2: with no present tier in `[width, width * 1.25]`: if some present tier
is at least as wide as requested, the smallest such tier is returned;
otherwise (all present tiers narrower, at least one present) the largest
present tier is returned — in both cases resolved through `getStrapiMedia`. -/
theorem formatImageUrlWithSize_oversized_or_largest
    (env : Env) (image : StrapiImage) (width : Nat) (format : String)
    (useProxy : Bool) (fs : ImageFormats) (hfs : image.formats = some fs)
    (hnone : ∀ g ∈ collectFormats fs, ¬(width ≤ g.format.width ∧
      (g.format.width : ℚ) ≤ (width : ℚ) * MAX_FORMAT_SIZE_MULTIPLIER)) :
    ((∃ g ∈ collectFormats fs, width ≤ g.format.width) →
      ∃ r ∈ collectFormats fs, width ≤ r.format.width ∧
        (∀ g ∈ collectFormats fs, width ≤ g.format.width →
          r.format.width ≤ g.format.width) ∧
        formatImageUrlWithSize env image width format useProxy =
          getStrapiMedia env (some r.format.url) useProxy) ∧
    ((∀ g ∈ collectFormats fs, g.format.width < width) →
      collectFormats fs ≠ [] →
      ∃ r ∈ collectFormats fs,
        (∀ g ∈ collectFormats fs, g.format.width ≤ r.format.width) ∧
        formatImageUrlWithSize env image width format useProxy =
          getStrapiMedia env (some r.format.url) useProxy) := by
  have hsuit : suitableFormats width (collectFormats fs) = [] := suitable_eq_nil hnone
  constructor
  · rintro ⟨g, hg, hgw⟩
    have hmem : g ∈ oversizedFormats width (collectFormats fs) :=
      mem_oversized_iff.2 ⟨hg, hgw⟩
    have hne : oversizedFormats width (collectFormats fs) ≠ [] :=
      List.ne_nil_of_mem hmem
    cases hp : pickSmallest (oversizedFormats width (collectFormats fs)) with
    | none => exact absurd (pickSmallest_eq_none.1 hp) hne
    | some r =>
      have hfm := pickSmallest_isFirstMin hp
      obtain ⟨hrcol, hr1⟩ := mem_oversized_iff.1 (IsFirstMin_mem hfm)
      refine ⟨r, hrcol, hr1, ?_, ?_⟩
      · intro g2 hg2m hg2w
        exact (IsFirstMin_min hfm) _ (mem_oversized_iff.2 ⟨hg2m, hg2w⟩)
      · simp [formatImageUrlWithSize, hfs, hsuit, pickSmallest_nil, hp]
  · intro hall hne
    have hover : oversizedFormats width (collectFormats fs) = [] :=
      oversized_eq_nil hall
    cases hp : pickLargest (collectFormats fs) with
    | none => exact absurd (pickLargest_eq_none.1 hp) hne
    | some r =>
      have hfm := pickLargest_isFirstMax hp
      refine ⟨r, IsFirstMax_mem hfm, IsFirstMax_max hfm, ?_⟩
      simp [formatImageUrlWithSize, hfs, hsuit, hover, pickSmallest_nil, pickLargest_nil, hp]

/-- Witness for C2: (a) tiers medium 750 / large 1000, width 400 — both
oversized, medium returned; (b) tiers thumbnail 150 / small 500, width 1000 —
all narrower, small returned. -/
theorem formatImageUrlWithSize_oversized_or_largest_witness :
    (∃ r ∈ collectFormats ⟨none, none, some ⟨"/uploads/medium.jpg", 750, 450⟩,
        some ⟨"/uploads/large.jpg", 1000, 600⟩⟩,
      400 ≤ r.format.width ∧
      (∀ g ∈ collectFormats ⟨none, none, some ⟨"/uploads/medium.jpg", 750, 450⟩,
          some ⟨"/uploads/large.jpg", 1000, 600⟩⟩,
        400 ≤ g.format.width → r.format.width ≤ g.format.width) ∧
      formatImageUrlWithSize ⟨"https://api.example.com", false⟩
          ⟨"/uploads/test-image.jpg",
           some ⟨none, none, some ⟨"/uploads/medium.jpg", 750, 450⟩,
             some ⟨"/uploads/large.jpg", 1000, 600⟩⟩⟩ 400 "webp" false =
        getStrapiMedia ⟨"https://api.example.com", false⟩ (some r.format.url) false) ∧
    (∃ r ∈ collectFormats ⟨some ⟨"/uploads/thumbnail.jpg", 150, 150⟩,
        some ⟨"/uploads/small.jpg", 500, 300⟩, none, none⟩,
      (∀ g ∈ collectFormats ⟨some ⟨"/uploads/thumbnail.jpg", 150, 150⟩,
          some ⟨"/uploads/small.jpg", 500, 300⟩, none, none⟩,
        g.format.width ≤ r.format.width) ∧
      formatImageUrlWithSize ⟨"https://api.example.com", false⟩
          ⟨"/uploads/test-image.jpg",
           some ⟨some ⟨"/uploads/thumbnail.jpg", 150, 150⟩,
             some ⟨"/uploads/small.jpg", 500, 300⟩, none, none⟩⟩ 1000 "webp" false =
        getStrapiMedia ⟨"https://api.example.com", false⟩ (some r.format.url) false) :=
  ⟨(formatImageUrlWithSize_oversized_or_largest
      ⟨"https://api.example.com", false⟩
      ⟨"/uploads/test-image.jpg",
       some ⟨none, none, some ⟨"/uploads/medium.jpg", 750, 450⟩,
         some ⟨"/uploads/large.jpg", 1000, 600⟩⟩⟩ 400 "webp" false
      ⟨none, none, some ⟨"/uploads/medium.jpg", 750, 450⟩,
       some ⟨"/uploads/large.jpg", 1000, 600⟩⟩ rfl
      (by simp only [withinMax_iff]; decide)).1
    ⟨⟨"medium", ⟨"/uploads/medium.jpg", 750, 450⟩⟩, by decide, by decide⟩,
   (formatImageUrlWithSize_oversized_or_largest
      ⟨"https://api.example.com", false⟩
      ⟨"/uploads/test-image.jpg",
       some ⟨some ⟨"/uploads/thumbnail.jpg", 150, 150⟩,
         some ⟨"/uploads/small.jpg", 500, 300⟩, none, none⟩⟩ 1000 "webp" false
      ⟨some ⟨"/uploads/thumbnail.jpg", 150, 150⟩,
       some ⟨"/uploads/small.jpg", 500, 300⟩, none, none⟩ rfl (by decide)).2
    (by decide) (by decide)⟩

/-- C9: whichever branch of `formatImageUrlWithSize` selects the result, the
returned tier is the *first* optimum of that branch's candidate list under the
fixed scan order large, medium, small, thumbnail (each scan keeps the current
element under a strict comparison, so ties go to the earlier tier). -/
theorem formatImageUrlWithSize_tie_break
    (env : Env) (image : StrapiImage) (width : Nat) (format : String)
    (useProxy : Bool) (fs : ImageFormats) (hfs : image.formats = some fs) :
    (∀ r, pickSmallest (suitableFormats width (collectFormats fs)) = some r →
      IsFirstMin (suitableFormats width (collectFormats fs)) r ∧
      formatImageUrlWithSize env image width format useProxy =
        getStrapiMedia env (some r.format.url) useProxy) ∧
    (pickSmallest (suitableFormats width (collectFormats fs)) = none →
      ∀ r, pickSmallest (oversizedFormats width (collectFormats fs)) = some r →
        IsFirstMin (oversizedFormats width (collectFormats fs)) r ∧
        formatImageUrlWithSize env image width format useProxy =
          getStrapiMedia env (some r.format.url) useProxy) ∧
    (pickSmallest (suitableFormats width (collectFormats fs)) = none →
      pickSmallest (oversizedFormats width (collectFormats fs)) = none →
      ∀ r, pickLargest (collectFormats fs) = some r →
        IsFirstMax (collectFormats fs) r ∧
        formatImageUrlWithSize env image width format useProxy =
          getStrapiMedia env (some r.format.url) useProxy) := by
  refine ⟨?_, ?_, ?_⟩
  · intro r hp
    exact ⟨pickSmallest_isFirstMin hp, by simp [formatImageUrlWithSize, hfs, hp]⟩
  · intro h1 r hp
    exact ⟨pickSmallest_isFirstMin hp, by simp [formatImageUrlWithSize, hfs, h1, hp]⟩
  · intro h1 h2 r hp
    exact ⟨pickLargest_isFirstMax hp, by simp [formatImageUrlWithSize, hfs, h1, h2, hp]⟩

/-- Witness for C9: medium and small both have width 500; with requested
width 400 both are in `[400, 500]`, and the scan returns medium, the earlier
tier in the scan order. -/
theorem formatImageUrlWithSize_tie_break_witness :
    IsFirstMin (suitableFormats 400 (collectFormats
        ⟨none, some ⟨"/uploads/small.jpg", 500, 300⟩,
         some ⟨"/uploads/medium.jpg", 500, 300⟩, none⟩))
      ⟨"medium", ⟨"/uploads/medium.jpg", 500, 300⟩⟩ ∧
    formatImageUrlWithSize ⟨"https://api.example.com", false⟩
        ⟨"/uploads/test-image.jpg",
         some ⟨none, some ⟨"/uploads/small.jpg", 500, 300⟩,
           some ⟨"/uploads/medium.jpg", 500, 300⟩, none⟩⟩ 400 "webp" false =
      getStrapiMedia ⟨"https://api.example.com", false⟩
        (some "/uploads/medium.jpg") false :=
  (formatImageUrlWithSize_tie_break ⟨"https://api.example.com", false⟩
      ⟨"/uploads/test-image.jpg",
       some ⟨none, some ⟨"/uploads/small.jpg", 500, 300⟩,
         some ⟨"/uploads/medium.jpg", 500, 300⟩, none⟩⟩ 400 "webp" false
      ⟨none, some ⟨"/uploads/small.jpg", 500, 300⟩,
       some ⟨"/uploads/medium.jpg", 500, 300⟩, none⟩ rfl).1
    ⟨"medium", ⟨"/uploads/medium.jpg", 500, 300⟩⟩ (by decide)

/-! ### Properties of the `fetchApi` retry loop -/

theorem fetchApiAux_step {T : Type} (strapiUrl : String)
    (oracle : Nat → FetchAttempt T) (lastE : Option JsError) (attempt f : Nat) :
    fetchApiAux strapiUrl oracle lastE attempt (f + 1) =
      match attemptStep strapiUrl attempt (oracle attempt) with
      | .done r => ⟨r, 1, []⟩
      | .retry404 =>
        ⟨(fetchApiAux strapiUrl oracle lastE (attempt + 1) f).result,
         (fetchApiAux strapiUrl oracle lastE (attempt + 1) f).attempts + 1,
         retryDelay :: (fetchApiAux strapiUrl oracle lastE (attempt + 1) f).delays⟩
      | .retryNet e =>
        ⟨(fetchApiAux strapiUrl oracle (some e) (attempt + 1) f).result,
         (fetchApiAux strapiUrl oracle (some e) (attempt + 1) f).attempts + 1,
         retryDelay :: (fetchApiAux strapiUrl oracle (some e) (attempt + 1) f).delays⟩ := rfl

theorem fetchApiAux_bounds {T : Type} (strapiUrl : String)
    (oracle : Nat → FetchAttempt T) :
    ∀ (fuel attempt : Nat) (lastE : Option JsError),
      (fetchApiAux strapiUrl oracle lastE attempt fuel).attempts ≤ fuel ∧
      ∀ d ∈ (fetchApiAux strapiUrl oracle lastE attempt fuel).delays,
        d = retryDelay := by
  intro fuel
  induction fuel with
  | zero =>
    intro attempt lastE
    simp [fetchApiAux]
  | succ f ih =>
    intro attempt lastE
    rcases h : attemptStep strapiUrl attempt (oracle attempt) with r | _ | e
    · simp [fetchApiAux, h]
    · have ihh := ih (attempt + 1) lastE
      refine ⟨?_, ?_⟩
      · simpa [fetchApiAux, h] using Nat.succ_le_succ ihh.1
      · intro d hd
        simp only [fetchApiAux, h] at hd
        rcases List.mem_cons.1 hd with rfl | hd
        · rfl
        · exact ihh.2 d hd
    · have ihh := ih (attempt + 1) (some e)
      refine ⟨?_, ?_⟩
      · simpa [fetchApiAux, h] using Nat.succ_le_succ ihh.1
      · intro d hd
        simp only [fetchApiAux, h] at hd
        rcases List.mem_cons.1 hd with rfl | hd
        · rfl
        · exact ihh.2 d hd

theorem fetchApiAux_retry_then_success {T : Type} (strapiUrl : String)
    (oracle : Nat → FetchAttempt T) (v : T) :
    ∀ (m attempt fuel : Nat) (lastE : Option JsError) (r : ApiReply T),
      m < fuel → attempt + fuel = maxRetries →
      (∀ i, i < m → ∃ stt b, oracle (attempt + i) = .reply ⟨false, 404, stt, b⟩) →
      oracle (attempt + m) = .reply r →
      r.ok = true → r.body.error = none → r.body.value = v →
      fetchApiAux strapiUrl oracle lastE attempt fuel =
        ⟨.ok v, m + 1, List.replicate m retryDelay⟩ := by
  intro m
  induction m with
  | zero =>
    intro attempt fuel lastE r hm hsum h404 hor hok herr hval
    obtain ⟨f, rfl⟩ := Nat.exists_eq_succ_of_ne_zero (Nat.pos_iff_ne_zero.1 hm)
    have hor0 : oracle attempt = .reply r := by simpa using hor
    have hstep : attemptStep strapiUrl attempt (oracle attempt) = .done (.ok v) := by
      rw [hor0]
      simp [attemptStep, hok, herr, hval]
    simp [fetchApiAux, hstep]
  | succ m ih =>
    intro attempt fuel lastE r hm hsum h404 hor hok herr hval
    obtain ⟨f, rfl⟩ := Nat.exists_eq_succ_of_ne_zero
      (Nat.pos_iff_ne_zero.1 (lt_of_le_of_lt (Nat.zero_le _) hm))
    obtain ⟨stt, b, h0⟩ := h404 0 (Nat.succ_pos m)
    have ha : attempt < maxRetries - 1 := by
      rw [show maxRetries = 10 from rfl] at hsum ⊢
      omega
    have hstep : attemptStep strapiUrl attempt (oracle attempt) = .retry404 := by
      rw [show attempt + 0 = attempt by omega] at h0
      rw [h0]
      simp [attemptStep, ha]
    have hrec := ih (attempt + 1) f lastE r (by omega) (by omega)
      (fun i hi => by
        obtain ⟨stt2, b2, h2⟩ := h404 (i + 1) (by omega)
        exact ⟨stt2, b2, by rw [show attempt + 1 + i = attempt + (i + 1) by omega]; exact h2⟩)
      (by rw [show attempt + 1 + m = attempt + (m + 1) by omega]; exact hor)
      hok herr hval
    simp [fetchApiAux, hstep, hrec, List.replicate_succ]

theorem fetchApiAux_all404 {T : Type} (strapiUrl : String)
    (oracle : Nat → FetchAttempt T) (st : Nat → String) (eb : Nat → JsonBody T) :
    ∀ (fuel attempt : Nat) (lastE : Option JsError),
      attempt + fuel = maxRetries → 1 ≤ fuel →
      (∀ i, i < maxRetries → oracle i = .reply ⟨false, 404, st i, eb i⟩) →
      fetchApiAux strapiUrl oracle lastE attempt fuel =
        ⟨.error (finalErr strapiUrl (st (maxRetries - 1)) (eb (maxRetries - 1))),
         fuel, List.replicate (fuel - 1) retryDelay⟩ := by
  intro fuel
  induction fuel with
  | zero =>
    intro attempt lastE hsum hge
    omega
  | succ f ih =>
    intro attempt lastE hsum hge h404
    by_cases hf : f = 0
    · subst hf
      have hat : attempt = maxRetries - 1 := by
        rw [show maxRetries = 10 from rfl] at hsum ⊢
        omega
      subst hat
      have h9 := h404 (maxRetries - 1) (by rw [show maxRetries = 10 from rfl]; omega)
      have hstep : attemptStep strapiUrl (maxRetries - 1) (oracle (maxRetries - 1)) =
          .done (.error (finalErr strapiUrl (st (maxRetries - 1)) (eb (maxRetries - 1)))) := by
        rw [h9]
        have hnot : ¬ (maxRetries - 1 < maxRetries - 1) := lt_irrefl _
        by_cases hnet : isNetworkError
            ⟨false, httpErrorMsg 404 (st (maxRetries - 1)) (jsonErrMsg (eb (maxRetries - 1)))⟩
        · simp [attemptStep, handleThrown, finalErr, hnot, hnet]
        · simp [attemptStep, handleThrown, finalErr, hnot, hnet]
      simp [fetchApiAux, hstep]
    · obtain ⟨f2, rfl⟩ := Nat.exists_eq_succ_of_ne_zero hf
      have ha : attempt < maxRetries - 1 := by
        rw [show maxRetries = 10 from rfl] at hsum ⊢
        omega
      have h0 := h404 attempt (by rw [show maxRetries = 10 from rfl] at hsum ⊢; omega)
      have hstep : attemptStep strapiUrl attempt (oracle attempt) = .retry404 := by
        rw [h0]
        simp [attemptStep, ha]
      have hrec := ih (attempt + 1) lastE (by omega) (by omega) h404
      rw [fetchApiAux_step, hstep]
      simp [hrec, List.replicate_succ]

/-- A backend that answers HTTP 404 to the first three attempts and then
succeeds with payload `7`. -/
def retryThenOkOracle : Nat → FetchAttempt Nat := fun i =>
  if i < 3 then .reply ⟨false, 404, "Not Found", ⟨none, 0⟩⟩
  else .reply ⟨true, 200, "OK", ⟨none, 7⟩⟩

/-- A backend that answers HTTP 404 (with an empty error envelope) to every
attempt. -/
def always404Oracle : Nat → FetchAttempt Nat := fun _ =>
  .reply ⟨false, 404, "Not Found", ⟨none, 0⟩⟩

/-- A backend that answers HTTP 404 to every attempt with an envelope error
message that itself contains `Failed to connect`. -/
def always404ConnectOracle : Nat → FetchAttempt Nat := fun _ =>
  .reply ⟨false, 404, "Not Found", ⟨some ⟨404, "Failed to connect"⟩, 0⟩⟩

/-- Counterexample to C3 as stated: when the backend 404s on every attempt
*and* the final 404's composed error message happens to contain
`Failed to connect`, the catch block classifies that thrown error as a network
failure and, attempts being exhausted, surfaces the generic connection-failure
error — not the most recent 404-derived error. -/
theorem fetchApi_all404_not_always_404_error :
    fetchApi "http://localhost:1337" always404ConnectOracle =
      ⟨.error ⟨false, "Failed to connect to Strapi at http://localhost:1337 after 10 attempts. Make sure Strapi is running."⟩,
       10, List.replicate 9 1000⟩ ∧
    httpErrorMsg 404 "Not Found"
        (jsonErrMsg (⟨some ⟨404, "Failed to connect"⟩, 0⟩ : JsonBody Nat)) =
      "Strapi API error (404): Failed to connect" ∧
    (fetchApi "http://localhost:1337" always404ConnectOracle).result ≠
      .error ⟨false, "Strapi API error (404): Failed to connect"⟩ :=
  ⟨by decide, by decide, by decide⟩

/-- C3 (amended): `fetchApi` makes at most 10 attempts with a fixed 1000 ms
delay between attempts; while attempts remain, an HTTP 404, an envelope error
with status 404, or a network-classified fetch failure triggers a retry; if
the backend 404s for the first `N < 10` attempts and then succeeds, the
success value is returned after `N + 1` attempts; and if it 404s on every
attempt, `fetchApi` fails after exactly 10 attempts, surfacing the most recent
404-derived error — except that when that error's message itself passes the
network-failure test (contains `Failed to connect`), the generic
connection-failure error naming the origin and the 10 attempts is surfaced
instead (`finalErr` captures both cases). -/
theorem fetchApi_retry_semantics {T : Type} (strapiUrl : String)
    (oracle : Nat → FetchAttempt T) (st : Nat → String) (eb : Nat → JsonBody T)
    (v : T) (N : Nat) (r : ApiReply T) :
    ((fetchApi strapiUrl oracle).attempts ≤ maxRetries ∧
      ∀ d ∈ (fetchApi strapiUrl oracle).delays, d = retryDelay) ∧
    (∀ attempt, attempt < maxRetries - 1 →
      (∀ stt (b : JsonBody T),
        attemptStep strapiUrl attempt (.reply ⟨false, 404, stt, b⟩) = .retry404) ∧
      (∀ okStatus stt (w : T) m,
        attemptStep strapiUrl attempt
          (.reply ⟨true, okStatus, stt, ⟨some ⟨404, m⟩, w⟩⟩) = .retry404) ∧
      (∀ e, isNetworkError e = true →
        attemptStep (T := T) strapiUrl attempt (.throw e) = .retryNet e)) ∧
    (N < maxRetries →
      (∀ i, i < N → oracle i = .reply ⟨false, 404, st i, eb i⟩) →
      oracle N = .reply r → r.ok = true → r.body.error = none → r.body.value = v →
      fetchApi strapiUrl oracle = ⟨.ok v, N + 1, List.replicate N retryDelay⟩) ∧
    ((∀ i, i < maxRetries → oracle i = .reply ⟨false, 404, st i, eb i⟩) →
      fetchApi strapiUrl oracle =
        ⟨.error (finalErr strapiUrl (st (maxRetries - 1)) (eb (maxRetries - 1))),
         maxRetries, List.replicate (maxRetries - 1) retryDelay⟩) := by
  refine ⟨fetchApiAux_bounds strapiUrl oracle maxRetries 0 none, ?_, ?_, ?_⟩
  · intro attempt ha
    refine ⟨?_, ?_, ?_⟩
    · intro stt b
      simp [attemptStep, ha]
    · intro okStatus stt w m
      simp [attemptStep, ha]
    · intro e he
      simp [attemptStep, handleThrown, ha, he]
  · intro hN h404 hor hok herr hval
    exact fetchApiAux_retry_then_success strapiUrl oracle v N 0 maxRetries none r hN
      (by omega)
      (fun i hi => ⟨st i, eb i, by simpa using h404 i hi⟩)
      (by simpa using hor) hok herr hval
  · intro h404
    exact fetchApiAux_all404 strapiUrl oracle st eb maxRetries 0 none (by omega)
      (by rw [show maxRetries = 10 from rfl]; omega) h404

/-- Witness for C3 (amended): 404 three times then success returns the
success value after 4 attempts and 3 delays; always-404 fails after exactly
10 attempts with the composed 404 error of the last attempt. -/
theorem fetchApi_retry_semantics_witness :
    fetchApi "http://localhost:1337" retryThenOkOracle =
      ⟨.ok 7, 4, List.replicate 3 retryDelay⟩ ∧
    fetchApi "http://localhost:1337" always404Oracle =
      ⟨.error (finalErr "http://localhost:1337" "Not Found"
         (⟨none, 0⟩ : JsonBody Nat)), maxRetries, List.replicate 9 retryDelay⟩ ∧
    finalErr "http://localhost:1337" "Not Found" (⟨none, 0⟩ : JsonBody Nat) =
      ⟨false, "Strapi API error (404): Not Found"⟩ :=
  ⟨(fetchApi_retry_semantics "http://localhost:1337" retryThenOkOracle
      (fun _ => "Not Found") (fun _ => ⟨none, 0⟩) 7 3
      ⟨true, 200, "OK", ⟨none, 7⟩⟩).2.2.1 (by decide) (by decide) rfl rfl rfl rfl,
   (fetchApi_retry_semantics "http://localhost:1337" always404Oracle
      (fun _ => "Not Found") (fun _ => ⟨none, 0⟩) 0 0
      ⟨true, 200, "OK", ⟨none, 0⟩⟩).2.2.2 (by decide),
   by decide⟩

/-- C4 (evaluating the endpoint): the missing-parameter, non-HTTP(S) and
not-allow-listed cases each yield 400, and an allowed URL whose upstream
returns 2xx yields 200 with the upstream `Content-Type` (defaulting to
`image/jpeg`), the long-lived `Cache-Control` and `nosniff` — but *no* CORS
headers: `Access-Control-Allow-Origin` and `Access-Control-Allow-Methods` are
absent from the success response, although the repository's own test
(`image-proxy.test.ts`, `should set proper cache headers`) expects them. -/
theorem imageProxyGET_success_headers_no_cors :
    imageProxyGET ⟨"https://api.example.com", false⟩
        (fun _ => .resp true 200 (some "image/jpeg") "imagebytes") none =
      plainResponse 400 "Missing url parameter" ∧
    imageProxyGET ⟨"https://api.example.com", false⟩
        (fun _ => .resp true 200 (some "image/jpeg") "imagebytes")
        (some (encodeURIComponent "ftp://example.com/image.jpg")) =
      plainResponse 400 "Invalid image URL: must be HTTP(S)" ∧
    imageProxyGET ⟨"https://api.example.com", false⟩
        (fun _ => .resp true 200 (some "image/jpeg") "imagebytes")
        (some (encodeURIComponent "file:///etc/passwd")) =
      plainResponse 400 "Invalid image URL: must be HTTP(S)" ∧
    imageProxyGET ⟨"https://api.example.com", false⟩
        (fun _ => .resp true 200 (some "image/jpeg") "imagebytes")
        (some (encodeURIComponent "https://external-site.com/image.jpg")) =
      plainResponse 400 "Invalid image URL: must be from Strapi API or media CDN" ∧
    imageProxyGET ⟨"https://api.example.com", false⟩
        (fun _ => .resp true 200 (some "image/jpeg") "imagebytes")
        (some (encodeURIComponent "https://api.example.com/uploads/image.jpg")) =
      ⟨200, "imagebytes",
       [("Content-Type", "image/jpeg"),
        ("Cache-Control", "public, max-age=31536000, immutable"),
        ("X-Content-Type-Options", "nosniff")]⟩ ∧
    headerValue
        (imageProxyGET ⟨"https://api.example.com", false⟩
          (fun _ => .resp true 200 none "imagebytes")
          (some (encodeURIComponent "https://api.example.com/uploads/image.jpg")))
        "Content-Type" = some "image/jpeg" ∧
    headerValue
        (imageProxyGET ⟨"https://api.example.com", false⟩
          (fun _ => .resp true 200 (some "image/jpeg") "imagebytes")
          (some (encodeURIComponent "https://api.example.com/uploads/image.jpg")))
        "Access-Control-Allow-Origin" = none ∧
    headerValue
        (imageProxyGET ⟨"https://api.example.com", false⟩
          (fun _ => .resp true 200 (some "image/jpeg") "imagebytes")
          (some (encodeURIComponent "https://api.example.com/uploads/image.jpg")))
        "Access-Control-Allow-Methods" = none :=
  ⟨by decide, by decide, by decide, by decide, by decide, by decide, by decide,
   by decide⟩

/-- Counterexample to C5 as stated: the gate is the regex test on the whole
resolved URL, not a check that its *path* ends in an image extension.  For
`https://h/a?f=b.jpg` the path (`/a`) does not end in an image extension, yet
(with `useProxy` and outside development mode) the URL is proxied rather than
returned unchanged. -/
theorem getStrapiMedia_proxies_query_extension :
    getStrapiMedia ⟨"https://api.example.com", false⟩
        (some "https://h/a?f=b.jpg") true =
      "/api/image-proxy?url=https%3A%2F%2Fh%2Fa%3Ff%3Db.jpg" ∧
    specPathEndsInImageExt "https://h/a?f=b.jpg" = false ∧
    "/api/image-proxy?url=https%3A%2F%2Fh%2Fa%3Ff%3Db.jpg" ≠ "https://h/a?f=b.jpg" :=
  ⟨by decide, by decide, by decide⟩

/-- C5 (amended): `getStrapiMedia` maps `null` and `""` to `""`; any other
input is resolved by prefixing the configured base origin when it starts with
`/` and kept as-is otherwise; then, exactly when the caller's `useProxy` flag
is true, the resolved URL passes the image-extension regex (a recognized
extension preceded by a dot and followed by end-of-string or a question mark,
*anywhere* in the URL), and the development-mode flag is off, the result is
`/api/image-proxy?url=<percent-encoded resolved URL>`; otherwise the resolved
URL is returned unchanged. -/
theorem getStrapiMedia_characterization (env : Env) (useProxy : Bool) :
    getStrapiMedia env none useProxy = "" ∧
    getStrapiMedia env (some "") useProxy = "" ∧
    ∀ s : String, s ≠ "" →
      getStrapiMedia env (some s) useProxy =
        (if useProxy = true ∧
            hasImageExtension (if strStarts s "/" then env.strapiUrl ++ s else s) = true ∧
            env.dev = false
         then "/api/image-proxy?url=" ++
           encodeURIComponent (if strStarts s "/" then env.strapiUrl ++ s else s)
         else (if strStarts s "/" then env.strapiUrl ++ s else s)) := by
  refine ⟨rfl, rfl, ?_⟩
  intro s hs
  by_cases hu : useProxy <;>
    by_cases he : hasImageExtension (if strStarts s "/" then env.strapiUrl ++ s else s) <;>
    by_cases hd : env.dev <;>
    simp [getStrapiMedia, proxyImageUrl, hs, hu, he, hd]

/-- Witness for C5 (amended): a relative `.png` URL is origin-prefixed and
proxied in production with `useProxy` on. -/
theorem getStrapiMedia_characterization_witness :
    getStrapiMedia ⟨"https://api.example.com", false⟩
        (some "/uploads/photo.png") true =
      "/api/image-proxy?url=https%3A%2F%2Fapi.example.com%2Fuploads%2Fphoto.png" := by
  have h := (getStrapiMedia_characterization ⟨"https://api.example.com", false⟩
    true).2.2 "/uploads/photo.png" (by decide)
  rw [h]
  decide

/-- Counterexample to C6 as stated: for a descriptor with no formats whose URL
fails to parse, the code does *not* return the original URL unchanged — it
returns `getStrapiMedia(image.url, useProxy)`, which here (a `.jpg` URL,
`useProxy` on, production mode) proxies the URL. -/
theorem formatImageUrlWithSize_fallback_counterexample :
    formatImageUrlWithSize ⟨"https://api.example.com", false⟩
        ⟨"foo.jpg", none⟩ 800 "webp" true = "/api/image-proxy?url=foo.jpg" ∧
    parseURL (getStrapiMedia ⟨"https://api.example.com", false⟩
        (some "foo.jpg") false) = none ∧
    "/api/image-proxy?url=foo.jpg" ≠ "foo.jpg" :=
  ⟨by decide, by decide, by decide⟩

/-- C6 (amended): for a descriptor with no format tiers present (no `formats`
object, or one with all four tiers absent), `formatImageUrlWithSize` falls
back to query-parameter construction: when the base-origin-resolved original
URL parses as an absolute URL, it returns that URL with `width` and `format`
query parameters set, proxied when `useProxy` is set; when parsing fails, it
returns `getStrapiMedia(image.url, useProxy)` — the original URL re-resolved
under the caller's proxy flag (origin-prefixed if relative and proxied when
the extension/dev gate applies), not necessarily the original URL unchanged. -/
theorem formatImageUrlWithSize_query_fallback (env : Env) (image : StrapiImage)
    (width : Nat) (format : String) (useProxy : Bool)
    (hf : image.formats = none ∨
      ∃ fs, image.formats = some fs ∧ collectFormats fs = []) :
    (∀ u, parseURL (getStrapiMedia env (some image.url) false) = some u →
      formatImageUrlWithSize env image width format useProxy =
        (if useProxy
         then proxyImageUrl env (urlToString
           (setSearchParam (setSearchParam u "width" (Nat.repr width)) "format" format))
         else urlToString
           (setSearchParam (setSearchParam u "width" (Nat.repr width)) "format" format))) ∧
    (parseURL (getStrapiMedia env (some image.url) false) = none →
      formatImageUrlWithSize env image width format useProxy =
        getStrapiMedia env (some image.url) useProxy) := by
  have hq : formatImageUrlWithSize env image width format useProxy =
      queryFallback env image width format useProxy := by
    rcases hf with hf | ⟨fs, hfs, hcol⟩
    · simp [formatImageUrlWithSize, hf]
    · simp [formatImageUrlWithSize, hfs, hcol, suitableFormats, oversizedFormats,
        pickSmallest_nil, pickLargest_nil]
  constructor
  · intro u hu
    rw [hq]
    simp [queryFallback, hu]
  · intro hn
    rw [hq]
    simp [queryFallback, hn]

/-- Witness for C6 (amended): with no formats, a parseable original URL gets
`width`/`format` query parameters; an unparseable one is re-resolved through
`getStrapiMedia` (here with `useProxy = false`, giving it back verbatim). -/
theorem formatImageUrlWithSize_query_fallback_witness :
    formatImageUrlWithSize ⟨"https://api.example.com", false⟩
        ⟨"/uploads/test-image.jpg", none⟩ 800 "webp" false =
      "https://api.example.com/uploads/test-image.jpg?width=800&format=webp" ∧
    formatImageUrlWithSize ⟨"https://api.example.com", false⟩
        ⟨"foo.jpg", none⟩ 800 "webp" false = "foo.jpg" := by
  constructor
  · have h := (formatImageUrlWithSize_query_fallback
      ⟨"https://api.example.com", false⟩ ⟨"/uploads/test-image.jpg", none⟩
      800 "webp" false (Or.inl rfl)).1
      ⟨"https://api.example.com/uploads/test-image.jpg", []⟩ (by decide)
    rw [h]
    decide
  · have h := (formatImageUrlWithSize_query_fallback
      ⟨"https://api.example.com", false⟩ ⟨"foo.jpg", none⟩
      800 "webp" false (Or.inl rfl)).2 (by decide)
    rw [h]
    decide

/-! ### String-containment lemmas for the validating variants' messages -/

theorem listContains_nil (l : List Char) : listContains [] l = true := by
  cases l <;> simp [listContains, isPref]

theorem isPref_self_append (xs ys : List Char) : isPref xs (xs ++ ys) = true := by
  induction xs with
  | nil => rfl
  | cons a as ih => simp [isPref, ih]

theorem isPref_append (sub l ys : List Char) (h : isPref sub l = true) :
    isPref sub (l ++ ys) = true := by
  induction sub generalizing l with
  | nil => rfl
  | cons a as ih =>
    cases l with
    | nil => simp [isPref] at h
    | cons b bs =>
      simp [isPref] at h ⊢
      exact ⟨h.1, ih bs h.2⟩

theorem listContains_append_of_right (sub xs ys : List Char)
    (h : listContains sub ys = true) : listContains sub (xs ++ ys) = true := by
  induction xs with
  | nil => simpa using h
  | cons c cs ih =>
    simp only [List.cons_append, listContains, Bool.or_eq_true]
    exact Or.inr ih

theorem listContains_append_of_left (sub xs ys : List Char)
    (h : listContains sub xs = true) : listContains sub (xs ++ ys) = true := by
  induction xs with
  | nil =>
    have hsub : sub = [] := by
      simpa [listContains, List.isEmpty_iff] using h
    subst hsub
    simpa using listContains_nil ys
  | cons c cs ih =>
    simp only [listContains, Bool.or_eq_true] at h
    simp only [List.cons_append, listContains, Bool.or_eq_true]
    rcases h with h | h
    · exact Or.inl (isPref_append _ _ _ h)
    · exact Or.inr (ih h)

theorem listContains_self_append (sub ys : List Char) :
    listContains sub (sub ++ ys) = true := by
  cases sub with
  | nil => simpa using listContains_nil ys
  | cons a as =>
    simp only [List.cons_append, listContains, Bool.or_eq_true]
    exact Or.inl (isPref_self_append (a :: as) ys)

theorem strData_append (a b : String) : (a ++ b).data = a.data ++ b.data := rfl

/-- The not-found message names the content type and instructs the caller to
publish the content and enable the public read permission, and it contains
the `content not found` marker the catch block tests for. -/
theorem notFoundMsg_mentions (name : String) :
    strIncludes (notFoundMsg name) name = true ∧
    strIncludes (notFoundMsg name) "publish" = true ∧
    strIncludes (notFoundMsg name) "permission" = true ∧
    strIncludes (notFoundMsg name) "content not found" = true := by
  unfold notFoundMsg strIncludes
  simp only [strData_append, List.append_assoc]
  refine ⟨listContains_self_append _ _, ?_, ?_, ?_⟩ <;>
  · exact listContains_append_of_right _ _ _ (listContains_append_of_left _ _ _ (by decide))

/-- The wrapped failure message carries the
`Make sure Strapi is running` hint regardless of the wrapped message and
content type name. -/
theorem wrapFailMsg_mentions (name e : String) :
    strIncludes (wrapFailMsg name e) "Make sure Strapi is running" = true := by
  unfold wrapFailMsg strIncludes
  simp only [strData_append, List.append_assoc]
  exact listContains_append_of_right _ _ _
    (listContains_append_of_right _ _ _ (listContains_append_of_left _ _ _ (by decide)))

/-- C7: a `null` single item or a `null`/empty collection raises the
not-found error naming the content type and instructing the caller to publish
the content and enable the public read permission; any other underlying
failure is re-raised wrapped with the make-sure-the-backend-is-running hint;
and an error whose message already says `content not found` is re-raised
as-is, never double-wrapped. -/
theorem validation_fetch_error_policy {T : Type} (name e : String) :
    (fetchSingleTypeWithValidation (T := T) name (.ok none) =
        .error (notFoundMsg name) ∧
      fetchCollectionWithValidation (T := T) name (.ok none) =
        .error (notFoundMsg name) ∧
      fetchCollectionWithValidation (T := T) name (.ok (some [])) =
        .error (notFoundMsg name) ∧
      strIncludes (notFoundMsg name) name = true ∧
      strIncludes (notFoundMsg name) "publish" = true ∧
      strIncludes (notFoundMsg name) "permission" = true) ∧
    (strIncludes e "content not found" = false →
      fetchSingleTypeWithValidation (T := T) name (.error e) =
          .error (wrapFailMsg name e) ∧
      fetchCollectionWithValidation (T := T) name (.error e) =
          .error (wrapFailMsg name e) ∧
      strIncludes (wrapFailMsg name e) "Make sure Strapi is running" = true) ∧
    (strIncludes e "content not found" = true →
      fetchSingleTypeWithValidation (T := T) name (.error e) = .error e ∧
      fetchCollectionWithValidation (T := T) name (.error e) = .error e) := by
  have hmark := (notFoundMsg_mentions name).2.2.2
  refine ⟨?_, ?_, ?_⟩
  · refine ⟨?_, ?_, ?_, (notFoundMsg_mentions name).1,
      (notFoundMsg_mentions name).2.1, (notFoundMsg_mentions name).2.2.1⟩ <;>
    · simp [fetchSingleTypeWithValidation, fetchCollectionWithValidation,
        validateCatch, hmark]
  · intro he
    refine ⟨?_, ?_, wrapFailMsg_mentions name e⟩ <;>
    · simp [fetchSingleTypeWithValidation, fetchCollectionWithValidation,
        validateCatch, he]
  · intro he
    constructor <;>
    · simp [fetchSingleTypeWithValidation, fetchCollectionWithValidation,
        validateCatch, he]

/-- Witness for C7 at `name = "About Page"`: null data, a network error, and
an error already carrying the marker. -/
theorem validation_fetch_error_policy_witness :
    fetchSingleTypeWithValidation (T := Nat) "About Page" (.ok none) =
      .error (notFoundMsg "About Page") ∧
    fetchCollectionWithValidation (T := Nat) "Projects" (.ok (some [])) =
      .error (notFoundMsg "Projects") ∧
    fetchSingleTypeWithValidation (T := Nat) "About Page" (.error "Network error") =
      .error (wrapFailMsg "About Page" "Network error") ∧
    fetchSingleTypeWithValidation (T := Nat) "About Page"
        (.error "About Page content not found in Strapi.") =
      .error "About Page content not found in Strapi." :=
  ⟨(validation_fetch_error_policy "About Page" "x").1.1,
   (validation_fetch_error_policy "Projects" "x").1.2.2.1,
   ((validation_fetch_error_policy "About Page" "Network error").2.1 (by decide)).1,
   ((validation_fetch_error_policy "About Page"
      "About Page content not found in Strapi.").2.2 (by decide)).1⟩

/-- C8: populate-parameter formatting: `undefined` yields no populate
parameter at all; the empty string or an empty list yields the wildcard `*`;
a non-empty list is joined with commas in order; a non-empty string passes
through unchanged. -/
theorem populate_param_formatting :
    formatPopulateParam .undef = none ∧
    formatPopulateParam (.str "") = some "*" ∧
    formatPopulateParam (.arr []) = some "*" ∧
    (∀ l : List String, l ≠ [] →
      formatPopulateParam (.arr l) = some (String.intercalate "," l)) ∧
    (∀ s : String, s ≠ "" → formatPopulateParam (.str s) = some s) ∧
    (∀ q : List (String × String), buildQueryParams q .undef = q) ∧
    (∀ (q : List (String × String)) (p : PopulateArg) (v : String),
      formatPopulateParam p = some v →
      (q.any fun kv => kv.1 = "populate") = false →
      buildQueryParams q p = q ++ [("populate", v)]) := by
  refine ⟨rfl, rfl, rfl, ?_, ?_, ?_, ?_⟩
  · intro l hl
    simp [formatPopulateParam, List.length_eq_zero, hl]
  · intro s hs
    simp [formatPopulateParam, hs]
  · intro q
    rfl
  · intro q p v hv hq
    simp [buildQueryParams, hv, setRecordKey, hq]

/-- Witness for C8: a two-element list joins with a comma, a non-empty string
passes through and lands as the `populate` query parameter after the caller's
query. -/
theorem populate_param_formatting_witness :
    formatPopulateParam (.arr ["image", "technologies"]) =
      some "image,technologies" ∧
    formatPopulateParam (.str "image") = some "image" ∧
    buildQueryParams [("locale", "en")] (.str "image") =
      [("locale", "en"), ("populate", "image")] := by
  refine ⟨?_, ?_, ?_⟩
  · have h := populate_param_formatting.2.2.2.1 ["image", "technologies"] (by decide)
    rw [h]
    decide
  · exact populate_param_formatting.2.2.2.2.1 "image" (by decide)
  · have h := populate_param_formatting.2.2.2.2.2.2 [("locale", "en")]
      (.str "image") "image" rfl (by decide)
    rw [h]
    rfl

/-- C10: the proxy's allow-list is substring containment, not host matching:
`https://evil.example.org/steal?x=https://api.example.com` has a host that is
neither the backend origin's host nor a managed-CDN host, yet because the
backend origin appears in its query string, the endpoint does not reject it
and proceeds to fetch the upstream URL (the oracle answers only that exact
URL, and its answer is returned with status 200). -/
theorem imageProxy_allowlist_is_substring_containment :
    urlHost "https://evil.example.org/steal?x=https://api.example.com" =
      "evil.example.org" ∧
    urlHost "https://api.example.com" = "api.example.com" ∧
    ("evil.example.org" : String) ≠ "api.example.com" ∧
    strIncludes "evil.example.org" ".media.strapiapp.com" = false ∧
    strIncludes "https://evil.example.org/steal?x=https://api.example.com"
      "https://api.example.com" = true ∧
    imageProxyGET ⟨"https://api.example.com", false⟩
        (fun u =>
          if u = "https://evil.example.org/steal?x=https://api.example.com"
          then .resp true 200 (some "image/png") "evilbytes"
          else .failure)
        (some "https://evil.example.org/steal?x=https://api.example.com") =
      ⟨200, "evilbytes",
       [("Content-Type", "image/png"),
        ("Cache-Control", "public, max-age=31536000, immutable"),
        ("X-Content-Type-Options", "nosniff")]⟩ :=
  ⟨by decide, by decide, by decide, by decide, by decide, by decide⟩

end Portfolio
